import Mathlib

/-!
Verification of the batch/gallery core of the imagen-openrouter application
(`src/app.js`).  JavaScript strings are modelled as `String`, or as `List Char`
where character-level reasoning is required; JavaScript numbers produced by
`Date.now() + index + Math.random()` are modelled as rationals (an integer
millisecond clock value plus a fractional random part); the IndexedDB store and
the remote generation API are modelled at their interface boundary (store
results and unit outcomes are inputs to the embedded operations).
-/

namespace Imagen

/-- JS `String.prototype.startsWith`, on strings modelled as `List Char`. -/
def strStarts : List Char → List Char → Bool
  | [], _ => true
  | _ :: _, [] => false
  | p :: ps, c :: cs => p == c && strStarts ps cs

/-- JS `String.prototype.includes`: some suffix of the haystack starts with the needle. -/
def hasSubstr (needle : List Char) : List Char → Bool
  | [] => strStarts needle []
  | c :: cs => strStarts needle (c :: cs) || hasSubstr needle cs

/-- JS `str.replace(/c/g, rep)`: replace every occurrence of the character `c`
by the replacement string `rep`. -/
def replaceAll (c : Char) (rep : List Char) : List Char → List Char
  | [] => []
  | x :: xs => if x = c then rep ++ replaceAll c rep xs else x :: replaceAll c rep xs

/-- The double-quote character. -/
def quoteChar : Char := Char.ofNat 34

/-- The single-quote character. -/
def aposChar : Char := Char.ofNat 39

/-- The percent-encoding of a double quote. -/
def pct22 : List Char := [Char.ofNat 37, '2', '2']

/-- The percent-encoding of a single quote. -/
def pct27 : List Char := [Char.ofNat 37, '2', '7']

/-- The prefix accepted for embedded images. -/
def dataImagePrefix : List Char := ("data:image/").toList

/-- The prefix accepted for remote images. -/
def httpsPrefix : List Char := ("https://").toList

/-- `sanitizeImageUrl` (app.js 1080-1093): empty/falsy input yields the empty
string; `data:image/` URLs pass unchanged; `https://` URLs pass with both kinds
of quote percent-escaped; everything else is blocked and becomes the empty
string. -/
def sanitizeImageUrl (url : List Char) : List Char :=
  if url = [] then []
  else if strStarts dataImagePrefix url then url
  else if strStarts httpsPrefix url then
    replaceAll aposChar pct27 (replaceAll quoteChar pct22 url)
  else []

/-- An entry of the static model-capability table `MODEL_CONFIGS` (app.js 104-196). -/
structure ModelConfig where
  name : String
  supportsImageSize : Bool
  supportsAspectRatio : Bool
  supportsImageInput : Bool
  maxReferences : Nat
deriving DecidableEq

/-- The live input settings read from the global `state` object: the fields of
`state` that `generateImages` and `generateSingleImage` consult (app.js 90-101). -/
structure SettingsState where
  selectedModel : String
  imageSize : String
  imageQuality : String
  aspectRatio : String
  references : List String
deriving DecidableEq

/-- `state.selectedModel.includes('gemini')` (app.js 728, 736). -/
def includesGemini (s : String) : Bool := hasSubstr (("gemini").toList) s.toList

/-- One element of the outbound `content` array (app.js 692-713). -/
inductive OutPart where
  | imageUrl (url : String) (detail : String)
  | text (s : String)
deriving DecidableEq

/-- The outbound message content: the bare prompt string when the content array
has a single element, the array of parts otherwise (app.js 721). -/
inductive OutContent where
  | plain (s : String)
  | parts (l : List OutPart)
deriving DecidableEq

/-- The outbound request body built by `generateSingleImage` (app.js 716-738):
target model, message content, the Gemini `image_config` pair
`(image_size, aspect_ratio)` when applicable, and the top-level `aspect_ratio`
parameter for non-Gemini models. -/
structure RequestBody where
  model : String
  content : OutContent
  image_config : Option (String × String)
  aspectRatioParam : Option String
deriving DecidableEq

/-- Request construction in `generateSingleImage` (app.js 690-738): reference
images are included only when the model supports image input (and only truthy,
i.e. non-empty, reference strings); the prompt is appended as a text part; a
lone text part is sent as the bare prompt string; Gemini models get an
`image_config` from the live quality and aspect-ratio settings, other models a
top-level `aspect_ratio`.  The `st` argument is the settings state observed at
the moment the function runs. -/
def buildRequestBody (st : SettingsState) (prompt : String) (modelConfig : ModelConfig) :
    RequestBody :=
  let refParts : List OutPart :=
    if modelConfig.supportsImageInput then
      (st.references.filter (fun r => r != "")).map (fun r => OutPart.imageUrl r ("high"))
    else []
  let content := refParts ++ [OutPart.text prompt]
  { model := st.selectedModel
    content := if content.length = 1 then OutContent.plain prompt else OutContent.parts content
    image_config :=
      if modelConfig.supportsImageSize && includesGemini st.selectedModel then
        some (st.imageQuality.toLower, st.aspectRatio)
      else none
    aspectRatioParam :=
      if modelConfig.supportsAspectRatio && !includesGemini st.selectedModel then
        some st.aspectRatio
      else none }

/-- A persisted gallery record (the `imageData` object built at app.js 638-649).
`createdAt` is the ISO timestamp modelled as milliseconds; `id` is the
JavaScript number `Date.now() + index + Math.random()`, a rational. -/
structure ImageRecord where
  id : ℚ
  url : String
  prompt : String
  model : String
  modelName : String
  size : String
  quality : String
  aspectRatio : String
  references : List String
  createdAt : Nat
deriving DecidableEq

/-- A pending generation batch (the object pushed onto `state.pendingBatches`
at app.js 619-628). -/
structure Batch where
  id : ℚ
  prompt : String
  model : String
  modelName : String
  count : Nat
  completed : Nat
  failed : Nat
deriving DecidableEq

/-- The settlement of one generation unit, as seen by its completion handler
`generateAndDisplay(index)` (app.js 634-665): which unit settled, whether its
request succeeded, the extracted image URL on success, and the clock value
(`Date.now()`, milliseconds) and `Math.random()` draw observed when the record
is built. -/
structure UnitSettle where
  index : Nat
  success : Bool
  resultUrl : String
  now : Nat
  rand : ℚ
deriving DecidableEq

/-- The record built by a successful unit (app.js 638-649).  All generation
parameters come from the locals captured at submission time (`prompt`,
`currentModel`, `modelConfig.name`, `currentSize`, `currentQuality`,
`currentAspectRatio`, `currentReferences`); only the id and timestamp depend on
the settlement. -/
def mkRecordFromUnit (st0 : SettingsState) (prompt : String) (modelConfig : ModelConfig)
    (u : UnitSettle) : ImageRecord :=
  { id := (u.now : ℚ) + (u.index : ℚ) + u.rand
    url := u.resultUrl
    prompt := prompt
    model := st0.selectedModel
    modelName := modelConfig.name
    size := st0.imageSize
    quality := st0.imageQuality
    aspectRatio := st0.aspectRatio
    references := st0.references
    createdAt := u.now }

/-- The aggregate completion notification shown after all units settle
(app.js 683-687): a success toast carrying `batch.completed`, or a generic
failure toast when no unit succeeded. -/
inductive Notification where
  | generated (n : Nat)
  | allFailed
deriving DecidableEq

/-- The observable outcome of one full `generateImages` run. -/
structure BatchRun where
  requestsSent : List RequestBody
  newImages : List ImageRecord
  imagesAfter : List ImageRecord
  pendingAfter : List Batch
  notification : Notification
deriving DecidableEq

/-- One settlement step of `generateAndDisplay` (app.js 634-665) acting on the
accumulated `(state.images, batch.completed, batch.failed)`: a success builds a
record, unshifts it onto the image list and increments `completed`; a failure
increments `failed`. -/
def settleFold (st0 : SettingsState) (prompt : String) (modelConfig : ModelConfig)
    (acc : List ImageRecord × Nat × Nat) (u : UnitSettle) : List ImageRecord × Nat × Nat :=
  if u.success then
    (mkRecordFromUnit st0 prompt modelConfig u :: acc.1, acc.2.1 + 1, acc.2.2)
  else
    (acc.1, acc.2.1, acc.2.2 + 1)

/-- A full `generateImages` run (app.js 596-688) after validation has passed.
The batch is pushed onto the pending list; all `count` request bodies are built
synchronously in the submission turn (the JavaScript event loop runs each
`generateAndDisplay(i)` up to its first `await` before anything else can run),
so every unit sends `buildRequestBody st0 prompt modelConfig` with the
submission-time settings `st0`; the settlements in `settles` then update the
image list and the batch counters; after `Promise.allSettled` the batch is
removed from the pending list by id and the aggregate notification is shown.
`liveSettings` records the settings state observed at each settlement point; the
completion handlers only use the captured submission-time values, so it does not
influence the result. -/
def runBatch (st0 : SettingsState) (prompt : String) (modelConfig : ModelConfig)
    (batchId : ℚ) (count : Nat) (images0 : List ImageRecord) (pending0 : List Batch)
    (settles : List UnitSettle) (liveSettings : List SettingsState) : BatchRun :=
  let batch0 : Batch :=
    { id := batchId, prompt := prompt, model := st0.selectedModel,
      modelName := modelConfig.name, count := count, completed := 0, failed := 0 }
  let pending1 := pending0 ++ [batch0]
  let requests := List.replicate count (buildRequestBody st0 prompt modelConfig)
  let folded := settles.foldl (settleFold st0 prompt modelConfig) ([], 0, 0)
  { requestsSent := requests
    newImages := folded.1.reverse
    imagesAfter := folded.1 ++ images0
    pendingAfter := pending1.eraseP (fun b => b.id == batchId)
    notification :=
      if folded.2.1 > 0 then Notification.generated folded.2.1 else Notification.allFailed }

/-- Progress counters of a batch as observable between event-loop steps:
whether the batch is in `state.pendingBatches`, and its `completed` and
`failed` counts. -/
structure BatchObs where
  present : Bool
  completed : Nat
  failed : Nat
deriving DecidableEq

/-- One settlement acting on the `(completed, failed)` counters
(app.js 651, 657, 662). -/
def settleCounts (s : Nat × Nat) (success : Bool) : Nat × Nat :=
  if success then (s.1 + 1, s.2) else (s.1, s.2 + 1)

/-- The counter values after each successive settlement. -/
def settleStates (s : Nat × Nat) : List Bool → List (Nat × Nat)
  | [] => []
  | o :: os => settleCounts s o :: settleStates (settleCounts s o) os

/-- The observable states of one batch across its lifetime (app.js 617-681),
given the per-unit outcomes in settlement order: the state rendered right after
the batch is pushed (app.js 628-629), the state rendered by each settlement
handler (app.js 652, 658, 663) — the batch still being in the pending list —
and the state rendered after `Promise.allSettled` resolves and the batch is
spliced out (app.js 676-681). -/
def batchObsTrace (outcomes : List Bool) : List BatchObs :=
  { present := true, completed := 0, failed := 0 }
    :: ((settleStates (0, 0) outcomes).map
          (fun s => { present := true, completed := s.1, failed := s.2 }))
    ++ [{ present := false, completed := (outcomes.foldl settleCounts (0, 0)).1,
          failed := (outcomes.foldl settleCounts (0, 0)).2 }]

/-- A store operation issued to `ImagenDB` (app.js 32-80). -/
inductive StoreOp where
  | putRecord (r : ImageRecord)
  | deleteById (id : ℚ)
  | clearStore
deriving DecidableEq

/-- The observable effect of a gallery operation: the in-memory list after it,
the store calls it issued, and whether an error escaped to the caller. -/
structure GalleryEffect where
  imagesAfter : List ImageRecord
  storeOps : List StoreOp
  raised : Bool
deriving DecidableEq

/-- `ImagenDB.getAllImages` (app.js 43-58): fetch everything and sort by
`createdAt` descending (newest first).  `Array.prototype.sort` with the
comparator `new Date(b.createdAt) - new Date(a.createdAt)` is a stable sort by
descending timestamp, modelled by a stable insertion sort. -/
def getAllImages (stored : List ImageRecord) : List ImageRecord :=
  stored.insertionSort (fun a b => b.createdAt ≤ a.createdAt)

/-- The gallery load in `init` (app.js 274-280): the sorted store contents on
success, the empty collection when the store read fails. -/
def loadImages (res : Except Unit (List ImageRecord)) : List ImageRecord :=
  match res with
  | Except.ok stored => getAllImages stored
  | Except.error _ => []

/-- Gallery insertion: `state.images.unshift(imageData)` (app.js 650). -/
def insertImage (record : ImageRecord) (images : List ImageRecord) : List ImageRecord :=
  record :: images

/-- `deleteImage(index)` (app.js 927-939): the record at `index` is spliced out
of the in-memory list and one store delete is issued with its id; when `index`
is out of range the splice is a no-op and the property access
`imageToDelete.id` throws inside the `try`, so no store call is issued; every
error (including a store failure) is caught, so nothing escapes.  `storeFails`
is the outcome of the store delete; it does not influence the in-memory list. -/
def deleteImage (idx : Nat) (images : List ImageRecord) (storeFails : Bool) : GalleryEffect :=
  match images[idx]? with
  | some r => { imagesAfter := images.eraseIdx idx, storeOps := [StoreOp.deleteById r.id],
                raised := false }
  | none => { imagesAfter := images.eraseIdx idx, storeOps := [], raised := false }

/-- The `clearGallery` click handler body after confirmation (app.js 395-406):
the in-memory list is emptied, one store-wide clear is issued, and a store
failure is caught and logged. -/
def clearGallery (images : List ImageRecord) (storeFails : Bool) : GalleryEffect :=
  { imagesAfter := [], storeOps := [StoreOp.clearStore], raised := false }

/-- JavaScript string truthiness on an optional field: present and non-empty. -/
def truthyStr : Option String → Option String
  | some s => if s = "" then none else some s
  | none => none

/-- An element of `message.images` (app.js 771-786): an object (with the
optional fields `image_url.url`, `url`, `b64_json`), a bare string, or any
other value. -/
inductive ImagesElem where
  | obj (imageUrlUrl : Option String) (url : Option String) (b64Json : Option String)
  | str (s : String)
  | other
deriving DecidableEq

/-- Image extraction from `message.images[0]` (app.js 771-786): try
`img.image_url?.url`; a bare string is returned as-is when it is a `data:` or
`http` URL and wrapped as a base64 PNG data URI otherwise; then `img.url`; then
`img.b64_json` wrapped as a base64 PNG data URI. -/
def extractFromImagesElem : ImagesElem → Option String
  | ImagesElem.obj iu u b64 =>
    match truthyStr iu with
    | some v => some v
    | none =>
      match truthyStr u with
      | some v => some v
      | none =>
        match truthyStr b64 with
        | some v => some (("data:image/png;base64,") ++ v)
        | none => none
  | ImagesElem.str s =>
      some (if s.startsWith ("data:") || s.startsWith ("http") then s
            else ("data:image/png;base64,") ++ s)
  | ImagesElem.other => none

/-- A structured content part (app.js 790-807), with the fields the scan
consults: `type`, `image_url?.url`, `inlineData?.data`, `inlineData?.mimeType`,
`image`. -/
structure ContentPart where
  ptype : Option String
  imageUrlUrl : Option String
  inlineDataData : Option String
  inlineDataMime : Option String
  imageField : Option String
deriving DecidableEq

/-- The three per-part checks, in source order (app.js 790-807): an OpenAI-style
`image_url` part, a Gemini-style `inlineData` part (defaulting the media type to
`image/png` when falsy), and a generic `image` part (wrapped as a base64 PNG
data URI when not already a data URI). -/
def extractFromPart (p : ContentPart) : Option String :=
  match (if p.ptype = some ("image_url") then truthyStr p.imageUrlUrl else none) with
  | some v => some v
  | none =>
    match truthyStr p.inlineDataData with
    | some d =>
        some (("data:")
          ++ (match truthyStr p.inlineDataMime with
              | some mt => mt
              | none => ("image/png"))
          ++ (";base64,") ++ d)
    | none =>
      match (if p.ptype = some ("image") then truthyStr p.imageField else none) with
      | some im =>
          some (if im.startsWith ("data:") then im else ("data:image/png;base64,") ++ im)
      | none => none

/-- The scan over the content array (app.js 789-808): first part with an image
payload wins. -/
def scanParts : List ContentPart → Option String
  | [] => none
  | p :: ps =>
    match extractFromPart p with
    | some v => some v
    | none => scanParts ps

/-- `message.content`: a string, an array of structured parts, or anything
else. -/
inductive MsgContent where
  | str (s : String)
  | parts (l : List ContentPart)
  | otherContent
deriving DecidableEq

/-- The response message `data.choices[0].message` as consulted by the
extraction logic (app.js 760-816). -/
structure Message where
  images : Option (List ImagesElem)
  content : MsgContent
deriving DecidableEq

/-- The extraction error: no recognizable image payload anywhere in the
response (the `throw` at app.js 815). -/
inductive GenError where
  | NoImageInResponse
deriving DecidableEq

/-- The tail of the extraction after the content-array scan (app.js 811-815):
a string content that is itself an embedded `data:image` URI is returned;
otherwise the unit fails. -/
def extractContentString (m : Message) : Except GenError String :=
  match m.content with
  | MsgContent.str s =>
      if s.startsWith ("data:image") then Except.ok s
      else Except.error GenError.NoImageInResponse
  | _ => Except.error GenError.NoImageInResponse

/-- The extraction after the `message.images` check (app.js 789-815): scan the
structured content parts, then fall back to the whole-body string check. -/
def extractAfterImages (m : Message) : Except GenError String :=
  match m.content with
  | MsgContent.parts l =>
    match scanParts l with
    | some v => Except.ok v
    | none => extractContentString m
  | _ => extractContentString m

/-- Image extraction from a parsed response message (app.js 769-815): look at
`message.images[0]` when the images array is present and non-empty, then at the
structured content parts, then at the whole content string; exhausting all
cases fails the unit. -/
def extractImage (m : Message) : Except GenError String :=
  match m.images with
  | some (img :: _) =>
    match extractFromImagesElem img with
    | some v => Except.ok v
    | none => extractAfterImages m
  | _ => extractAfterImages m

/-- Modelled from the spec: the first documented shape, "a dedicated images
list on the response message". -/
def shapeImagesList (m : Message) : Option String :=
  match m.images with
  | some (img :: _) => extractFromImagesElem img
  | _ => none

/-- Modelled from the spec: the second documented shape, "an image-bearing part
inside a structured content array". -/
def shapeContentPart (m : Message) : Option String :=
  match m.content with
  | MsgContent.parts l => scanParts l
  | _ => none

/-- Modelled from the spec: the third documented shape, "the whole message
content as an embedded data-URI string". -/
def shapeWholeBody (m : Message) : Option String :=
  match m.content with
  | MsgContent.str s => if s.startsWith ("data:image") then some s else none
  | _ => none

/-- Modelled from the spec: try the three documented shapes in order and return
the first match's payload; fail with `NoImageInResponse` when none matches. -/
def extractImageSpec (m : Message) : Except GenError String :=
  match shapeImagesList m with
  | some v => Except.ok v
  | none =>
    match shapeContentPart m with
    | some v => Except.ok v
    | none =>
      match shapeWholeBody m with
      | some v => Except.ok v
      | none => Except.error GenError.NoImageInResponse

/-- A size/quality toggle button as rendered in the sidebar: its
`dataset.quality` and `dataset.size` attributes.  The concrete button set lives
in `index.html`, which is outside `src/`; it is kept as a parameter. -/
structure QualityButton where
  quality : String
  size : String
deriving DecidableEq

/-- The input configuration `recreateImage` writes to (prompt box plus the
`state` fields it restores, app.js 984-1027). -/
structure InputConfig where
  promptInput : String
  selectedModel : String
  imageSize : String
  imageQuality : String
  aspectRatio : String
  references : List String
deriving DecidableEq

/-- `recreateImage` (app.js 984-1034) applied to a stored record: the prompt
and model are restored unconditionally; the quality/size pair is taken from the
toggle button whose `dataset.quality` matches the record (iterating all buttons,
a later match overwriting an earlier one, and leaving the current value when
none matches); the aspect ratio likewise from the matching aspect button; the
reference list is replaced by the record's (or emptied when the record has
none). -/
def recreateImage (qualityBtns : List QualityButton) (ratioBtns : List String)
    (record : ImageRecord) (cur : InputConfig) : InputConfig :=
  let sq := qualityBtns.foldl
    (fun acc b => if b.quality = record.quality then (b.size, b.quality) else acc)
    (cur.imageSize, cur.imageQuality)
  let ar := ratioBtns.foldl
    (fun acc r => if r = record.aspectRatio then r else acc) cur.aspectRatio
  { promptInput := record.prompt
    selectedModel := record.model
    imageSize := sq.1
    imageQuality := sq.2
    aspectRatio := ar
    references := if record.references.length > 0 then record.references else [] }

/-- A sample settings state for concrete instances. -/
def sampleSettings : SettingsState :=
  { selectedModel := "google/gemini-2.5-flash-image", imageSize := "1024x1024",
    imageQuality := "1K", aspectRatio := "1:1", references := [] }

/-- The capability entry for `google/gemini-2.5-flash-image` (app.js 105-111). -/
def sampleConfig : ModelConfig :=
  { name := "Gemini 2.5 Flash Image", supportsImageSize := true,
    supportsAspectRatio := true, supportsImageInput := true, maxReferences := 3 }

/-- A sample successful settlement. -/
def sampleSettle : UnitSettle :=
  { index := 0, success := true, resultUrl := "data:image/png;base64,AAA",
    now := 100, rand := 0 }

/-- Two settlements whose ids collide: the unit with index 1 settles first at
clock value 4, the unit with index 0 one millisecond later at clock value 5,
with equal `Math.random()` draws, so both records get id 5. -/
def collideSettles : List UnitSettle :=
  [{ index := 1, success := true, resultUrl := "a", now := 4, rand := 0 },
   { index := 0, success := true, resultUrl := "b", now := 5, rand := 0 }]

/-- A single failing settlement. -/
def failSettle : UnitSettle :=
  { index := 0, success := false, resultUrl := "", now := 0, rand := 0 }

/-- A gallery record carrying only a timestamp, for concrete ordering
instances. -/
def recAt (t : Nat) : ImageRecord :=
  { id := (t : ℚ), url := "", prompt := "", model := "", modelName := "",
    size := "", quality := "", aspectRatio := "", references := [], createdAt := t }

/-- A sample size/quality toggle button set. -/
def sampleButtons : List QualityButton :=
  [{ quality := "1K", size := "1024x1024" }, { quality := "2K", size := "2048x2048" }]

/-- A sample aspect-ratio button set. -/
def sampleRatios : List String := ["1:1", "16:9"]

/-- A sample stored record whose parameters come from the sample button sets. -/
def sampleRecord : ImageRecord :=
  { id := 1, url := "https://example.com/i.png", prompt := "sunset",
    model := "openai/gpt-5-image", modelName := "GPT-5 Image", size := "2048x2048",
    quality := "2K", aspectRatio := "16:9", references := ["r1"], createdAt := 10 }

/-- A current input configuration left over from an intervening submission,
sharing no value with `sampleRecord`. -/
def junkConfig : InputConfig :=
  { promptInput := "other", selectedModel := "other-model", imageSize := "512x512",
    imageQuality := "low", aspectRatio := "9:16", references := ["zzz"] }

end Imagen

namespace Imagen

theorem strStarts_append (p t : List Char) : strStarts p (p ++ t) = true := by
  induction p with
  | nil => rfl
  | cons c cs ih => simp [strStarts, ih]

theorem strStarts_iff_exists (p l : List Char) :
    strStarts p l = true ↔ ∃ t, l = p ++ t := by
  constructor
  · intro h
    induction p generalizing l with
    | nil => exact ⟨l, rfl⟩
    | cons c cs ih =>
      cases l with
      | nil => simp [strStarts] at h
      | cons x xs =>
        simp only [strStarts, Bool.and_eq_true, beq_iff_eq] at h
        obtain ⟨rfl, h2⟩ := h
        obtain ⟨t, rfl⟩ := ih xs h2
        exact ⟨t, rfl⟩
  · rintro ⟨t, rfl⟩
    exact strStarts_append p t

theorem replaceAll_append_of_not_mem (c : Char) (rep p t : List Char)
    (hp : c ∉ p) : replaceAll c rep (p ++ t) = p ++ replaceAll c rep t := by
  induction p with
  | nil => rfl
  | cons x xs ih =>
    have hx : x ≠ c := fun h => hp (h ▸ List.mem_cons_self x xs)
    have hxs : c ∉ xs := fun h => hp (List.mem_cons_of_mem _ h)
    simp [replaceAll, hx, ih hxs]

theorem not_mem_replaceAll_self (c : Char) (rep l : List Char)
    (hrep : c ∉ rep) : c ∉ replaceAll c rep l := by
  induction l with
  | nil => simp [replaceAll]
  | cons x xs ih =>
    by_cases hx : x = c
    · simp only [replaceAll, hx, if_pos rfl]
      intro h
      rcases List.mem_append.1 h with h | h
      · exact hrep h
      · exact ih h
    · simp only [replaceAll, if_neg hx]
      intro h
      rcases List.mem_cons.1 h with h | h
      · exact hx h.symm
      · exact ih h

theorem not_mem_replaceAll_of_not_mem (c d : Char) (rep l : List Char)
    (hl : d ∉ l) (hrep : d ∉ rep) : d ∉ replaceAll c rep l := by
  induction l with
  | nil => simp [replaceAll]
  | cons x xs ih =>
    have hx : d ≠ x := fun h => hl (h ▸ List.mem_cons_self x xs)
    have hxs : d ∉ xs := fun h => hl (List.mem_cons_of_mem _ h)
    by_cases hc : x = c
    · simp only [replaceAll, hc, if_pos rfl]
      intro h
      rcases List.mem_append.1 h with h | h
      · exact hrep h
      · exact ih hxs h
    · simp only [replaceAll, if_neg hc]
      intro h
      rcases List.mem_cons.1 h with h | h
      · exact hx h
      · exact ih hxs h

/-- C10: for every input string, `sanitizeImageUrl` returns the empty string, a
string beginning with `data:image/`, or a string beginning with `https://` that
contains no double-quote or single-quote character; and every input starting
with neither allowed prefix (e.g. `javascript:` or `http:` URLs) is mapped to
the empty string. -/
theorem sanitizeImageUrl_safe (url : List Char) :
    (sanitizeImageUrl url = []
      ∨ strStarts dataImagePrefix (sanitizeImageUrl url) = true
      ∨ (strStarts httpsPrefix (sanitizeImageUrl url) = true
          ∧ quoteChar ∉ sanitizeImageUrl url
          ∧ aposChar ∉ sanitizeImageUrl url))
    ∧ (strStarts dataImagePrefix url = false → strStarts httpsPrefix url = false →
        sanitizeImageUrl url = []) := by
  constructor
  · by_cases h0 : url = []
    · left; simp [sanitizeImageUrl, h0]
    · by_cases h1 : strStarts dataImagePrefix url = true
      · right; left
        simp [sanitizeImageUrl, h0, h1]
      · by_cases h2 : strStarts httpsPrefix url = true
        · right; right
          have hres : sanitizeImageUrl url
              = replaceAll aposChar pct27 (replaceAll quoteChar pct22 url) := by
            simp [sanitizeImageUrl, h0, h1, h2]
          obtain ⟨t, ht⟩ := (strStarts_iff_exists httpsPrefix url).1 h2
          have hq_prefix : quoteChar ∉ httpsPrefix := by decide
          have ha_prefix : aposChar ∉ httpsPrefix := by decide
          have step1 : replaceAll quoteChar pct22 url
              = httpsPrefix ++ replaceAll quoteChar pct22 t := by
            rw [ht]; exact replaceAll_append_of_not_mem _ _ _ _ hq_prefix
          have step2 : replaceAll aposChar pct27 (replaceAll quoteChar pct22 url)
              = httpsPrefix ++ replaceAll aposChar pct27 (replaceAll quoteChar pct22 t) := by
            rw [step1]; exact replaceAll_append_of_not_mem _ _ _ _ ha_prefix
          refine ⟨?_, ?_, ?_⟩
          · rw [hres, step2]; exact strStarts_append _ _
          · rw [hres]
            have h3 : quoteChar ∉ replaceAll quoteChar pct22 url :=
              not_mem_replaceAll_self _ _ _ (by decide)
            exact not_mem_replaceAll_of_not_mem _ _ _ _ h3 (by decide)
          · rw [hres]
            exact not_mem_replaceAll_self _ _ _ (by decide)
        · left
          simp [sanitizeImageUrl, h0, h1, h2]
  · intro hd hh
    by_cases h0 : url = []
    · simp [sanitizeImageUrl, h0]
    · simp [sanitizeImageUrl, h0, hd, hh]

/-- Witness for `sanitizeImageUrl_safe`: a `javascript:` URL matches neither
allowed prefix and is mapped to the empty string. -/
theorem sanitizeImageUrl_safe_witness :
    strStarts dataImagePrefix (("javascript:alert(1)").toList) = false
    ∧ strStarts httpsPrefix (("javascript:alert(1)").toList) = false
    ∧ sanitizeImageUrl (("javascript:alert(1)").toList) = [] := by
  refine ⟨by decide, by decide, ?_⟩
  exact (sanitizeImageUrl_safe (("javascript:alert(1)").toList)).2 (by decide) (by decide)

theorem settleCounts_sum (s : Nat × Nat) (o : Bool) :
    (settleCounts s o).1 + (settleCounts s o).2 = s.1 + s.2 + 1 := by
  cases o <;> simp [settleCounts] <;> omega

theorem mem_settleStates_sum (os : List Bool) (s : Nat × Nat) :
    ∀ x ∈ settleStates s os, x.1 + x.2 ≤ s.1 + s.2 + os.length := by
  induction os generalizing s with
  | nil => intro x hx; simp [settleStates] at hx
  | cons o os ih =>
    intro x hx
    simp only [settleStates, List.mem_cons] at hx
    rcases hx with rfl | hx
    · rw [settleCounts_sum]
      simp only [List.length_cons]
      omega
    · have h := ih (settleCounts s o) x hx
      rw [settleCounts_sum] at h
      simp only [List.length_cons]
      omega

theorem foldl_settleCounts_sum (os : List Bool) (s : Nat × Nat) :
    (os.foldl settleCounts s).1 + (os.foldl settleCounts s).2 = s.1 + s.2 + os.length := by
  induction os generalizing s with
  | nil => simp
  | cons o os ih =>
    simp only [List.foldl_cons, List.length_cons]
    rw [ih (settleCounts s o), settleCounts_sum]
    omega

/-- C1 (amended): along every observable state of a batch's lifetime,
`completed + failed` never exceeds the requested count; any observable state
with `completed + failed < requestedCount` still has the batch in the active
set; and the batch is absent only with `completed + failed = requestedCount`.
The claimed iff fails in one transient direction, see
`batchTracker_iff_counterexample`. -/
theorem batchTracker_invariant (outcomes : List Bool) :
    ∀ s ∈ batchObsTrace outcomes,
      s.completed + s.failed ≤ outcomes.length
      ∧ (s.completed + s.failed < outcomes.length → s.present = true)
      ∧ (s.present = false → s.completed + s.failed = outcomes.length) := by
  intro s hs
  simp only [batchObsTrace] at hs
  rcases List.mem_append.1 hs with hs | hs
  · rcases List.mem_cons.1 hs with rfl | hs
    · exact ⟨Nat.zero_le _, fun _ => rfl, fun h => Bool.noConfusion h⟩
    · obtain ⟨x, hx, rfl⟩ := List.mem_map.1 hs
      have h := mem_settleStates_sum outcomes (0, 0) x hx
      simp only at h
      refine ⟨?_, fun _ => rfl, fun h2 => Bool.noConfusion h2⟩
      dsimp only
      omega
  · rcases List.mem_singleton.1 hs with rfl
    have h := foldl_settleCounts_sum outcomes (0, 0)
    simp only at h
    refine ⟨?_, fun h2 => ?_, fun _ => ?_⟩
    · dsimp only
      omega
    · exfalso
      dsimp only at h2
      omega
    · dsimp only
      omega

/-- C1 counterexample: for a batch of one unit whose single settlement fails,
the state rendered by the settlement handler — before the batch is spliced out
after `Promise.allSettled` resolves — has the batch still present in the active
set with `completed + failed = requestedCount = 1`, so presence is not
equivalent to `completed + failed < requestedCount`. -/
theorem batchTracker_iff_counterexample :
    ¬ ∀ s ∈ batchObsTrace [false], (s.present = true ↔ s.completed + s.failed < 1) := by
  decide

/-- Witness for `batchTracker_invariant` at the state following the single
successful settlement of a one-unit batch. -/
theorem batchTracker_invariant_witness :
    (BatchObs.mk true 1 0 ∈ batchObsTrace [true])
    ∧ ((BatchObs.mk true 1 0).completed + (BatchObs.mk true 1 0).failed
          ≤ List.length [true]
        ∧ ((BatchObs.mk true 1 0).completed + (BatchObs.mk true 1 0).failed
              < List.length [true] → (BatchObs.mk true 1 0).present = true)
        ∧ ((BatchObs.mk true 1 0).present = false →
            (BatchObs.mk true 1 0).completed + (BatchObs.mk true 1 0).failed
              = List.length [true])) :=
  ⟨by decide, batchTracker_invariant [true] (BatchObs.mk true 1 0) (by decide)⟩

/-- C5: startup gallery load — on a successful store read the initial in-memory
collection is the stored records sorted newest-first (a permutation of the store
contents, sorted by `createdAt` descending); on a store failure it is the empty
collection and no error propagates. -/
theorem loadImages_spec :
    (∀ e : Unit, loadImages (Except.error e) = [])
    ∧ ∀ stored : List ImageRecord,
        (loadImages (Except.ok stored)).Perm stored
        ∧ List.Sorted (fun a b : ImageRecord => b.createdAt ≤ a.createdAt)
            (loadImages (Except.ok stored)) := by
  constructor
  · intro e; rfl
  · intro stored
    constructor
    · exact List.perm_insertionSort _ stored
    · haveI : IsTotal ImageRecord (fun a b => b.createdAt ≤ a.createdAt) :=
        ⟨fun a b => le_total b.createdAt a.createdAt⟩
      haveI : IsTrans ImageRecord (fun a b => b.createdAt ≤ a.createdAt) :=
        ⟨fun a b c hab hbc => le_trans hbc hab⟩
      exact List.sorted_insertionSort _ stored

/-- C6: gallery ordering — inserting a freshly built record whose settlement
clock value is at least every existing record's `createdAt` preserves the
newest-first sort order of the in-memory collection, and reloading a store
holding timestamps 1 < 2 < 3 yields them in order [3, 2, 1]. -/
theorem gallery_ordering (st0 : SettingsState) (prompt : String) (modelConfig : ModelConfig)
    (u : UnitSettle) (images : List ImageRecord)
    (hsorted : List.Sorted (fun a b : ImageRecord => b.createdAt ≤ a.createdAt) images)
    (hclock : ∀ x ∈ images, x.createdAt ≤ u.now) :
    List.Sorted (fun a b : ImageRecord => b.createdAt ≤ a.createdAt)
        (insertImage (mkRecordFromUnit st0 prompt modelConfig u) images)
    ∧ getAllImages [recAt 1, recAt 2, recAt 3] = [recAt 3, recAt 2, recAt 1] := by
  constructor
  · exact (List.sorted_cons).2 ⟨fun b hb => hclock b hb, hsorted⟩
  · decide

/-- Witness for `gallery_ordering`: inserting a record settled at clock value
100 into a sorted gallery holding one record with timestamp 0. -/
theorem gallery_ordering_witness :
    List.Sorted (fun a b : ImageRecord => b.createdAt ≤ a.createdAt) [recAt 0]
    ∧ (∀ x ∈ [recAt 0], x.createdAt ≤ sampleSettle.now)
    ∧ List.Sorted (fun a b : ImageRecord => b.createdAt ≤ a.createdAt)
        (insertImage (mkRecordFromUnit sampleSettings ("p") sampleConfig sampleSettle)
          [recAt 0]) :=
  ⟨by decide, by decide,
    (gallery_ordering sampleSettings ("p") sampleConfig sampleSettle [recAt 0]
      (by decide) (by decide)).1⟩

/-- C7: deleting by index — in range, exactly the record at the index is removed
from the in-memory list and exactly one store delete carrying that record's id
is issued; out of range, the operation is an in-memory no-op issuing no store
call; no error escapes, and the in-memory result does not depend on the store
delete's outcome. -/
theorem deleteImage_spec (idx : Nat) (images : List ImageRecord) (storeFails : Bool) :
    (∀ h : idx < images.length,
        (deleteImage idx images storeFails).imagesAfter
            = images.take idx ++ images.drop (idx + 1)
        ∧ (deleteImage idx images storeFails).storeOps
            = [StoreOp.deleteById (images.get ⟨idx, h⟩).id])
    ∧ (images.length ≤ idx →
        (deleteImage idx images storeFails).imagesAfter = images
        ∧ (deleteImage idx images storeFails).storeOps = [])
    ∧ (deleteImage idx images storeFails).raised = false
    ∧ (deleteImage idx images storeFails).imagesAfter
        = (deleteImage idx images true).imagesAfter := by
  have hdel : ∀ sf : Bool, (deleteImage idx images sf).imagesAfter = images.eraseIdx idx := by
    intro sf
    unfold deleteImage
    cases images[idx]? <;> rfl
  refine ⟨?_, ?_, ?_, ?_⟩
  · intro h
    have hget : images[idx]? = some (images.get ⟨idx, h⟩) := List.getElem?_eq_getElem h
    constructor
    · rw [hdel, List.eraseIdx_eq_take_drop_succ]
    · simp [deleteImage, hget]
  · intro h
    have hget : images[idx]? = none := List.getElem?_eq_none h
    constructor
    · rw [hdel, List.eraseIdx_eq_take_drop_succ, List.take_of_length_le h,
        List.drop_eq_nil_of_le (by omega), List.append_nil]
    · simp [deleteImage, hget]
  · unfold deleteImage
    cases images[idx]? <;> rfl
  · rw [hdel, hdel]

/-- Witness for `deleteImage_spec`: deleting index 0 from a one-record gallery
while the store delete fails. -/
theorem deleteImage_spec_witness :
    (0 : Nat) < List.length [recAt 5]
    ∧ ((deleteImage 0 [recAt 5] true).imagesAfter
          = List.take 0 [recAt 5] ++ List.drop (0 + 1) [recAt 5]
        ∧ (deleteImage 0 [recAt 5] true).storeOps
          = [StoreOp.deleteById (List.get [recAt 5] ⟨0, by decide⟩).id]) :=
  ⟨by decide, (deleteImage_spec 0 [recAt 5] true).1 (by decide)⟩

/-- C8: clearing the gallery leaves the in-memory collection empty regardless of
the store-wide clear's outcome, the clear issues exactly one store-wide clear
call, and no store failure propagates. -/
theorem clearGallery_spec (images : List ImageRecord) (storeFails : Bool) :
    (clearGallery images storeFails).imagesAfter = []
    ∧ (clearGallery images storeFails).raised = false
    ∧ (clearGallery images storeFails).storeOps = [StoreOp.clearStore] :=
  ⟨rfl, rfl, rfl⟩

theorem settleFold_images (st0 : SettingsState) (prompt : String) (modelConfig : ModelConfig)
    (settles : List UnitSettle) (acc : List ImageRecord × Nat × Nat) :
    (settles.foldl (settleFold st0 prompt modelConfig) acc).1
      = ((settles.filter (fun u => u.success)).map
          (mkRecordFromUnit st0 prompt modelConfig)).reverse ++ acc.1 := by
  induction settles generalizing acc with
  | nil => simp
  | cons u us ih =>
    rw [List.foldl_cons, ih]
    by_cases hu : u.success = true
    · simp [settleFold, hu, List.filter_cons]
    · simp [settleFold, hu, List.filter_cons]

theorem settleFold_completed (st0 : SettingsState) (prompt : String)
    (modelConfig : ModelConfig) (settles : List UnitSettle)
    (acc : List ImageRecord × Nat × Nat) :
    (settles.foldl (settleFold st0 prompt modelConfig) acc).2.1
      = acc.2.1 + (settles.filter (fun u => u.success)).length := by
  induction settles generalizing acc with
  | nil => simp
  | cons u us ih =>
    rw [List.foldl_cons, ih]
    by_cases hu : u.success = true
    · simp [settleFold, hu, List.filter_cons]
      omega
    · simp [settleFold, hu, List.filter_cons]

theorem length_filter_add_length_filter_not (settles : List UnitSettle) :
    (settles.filter (fun u => u.success)).length
      + (settles.filter (fun u => !u.success)).length = settles.length := by
  induction settles with
  | nil => rfl
  | cons u us ih =>
    by_cases hu : u.success = true
    · simp [List.filter_cons, hu]
      omega
    · simp [List.filter_cons, hu]
      omega

theorem runBatch_newImages (st0 : SettingsState) (prompt : String) (modelConfig : ModelConfig)
    (batchId : ℚ) (count : Nat) (images0 : List ImageRecord) (pending0 : List Batch)
    (settles : List UnitSettle) (liveSettings : List SettingsState) :
    (runBatch st0 prompt modelConfig batchId count images0 pending0 settles
        liveSettings).newImages
      = (settles.filter (fun u => u.success)).map (mkRecordFromUnit st0 prompt modelConfig) := by
  unfold runBatch
  dsimp only
  rw [settleFold_images]
  simp

theorem runBatch_pendingAfter (st0 : SettingsState) (prompt : String)
    (modelConfig : ModelConfig) (batchId : ℚ) (count : Nat) (images0 : List ImageRecord)
    (pending0 : List Batch) (settles : List UnitSettle) (liveSettings : List SettingsState)
    (hid : ∀ b ∈ pending0, b.id ≠ batchId) :
    (runBatch st0 prompt modelConfig batchId count images0 pending0 settles
        liveSettings).pendingAfter = pending0 := by
  unfold runBatch
  dsimp only
  rw [List.eraseP_append_right]
  · rw [List.eraseP_cons_of_pos (by simp)]
    simp
  · intro b hb
    simp only [beq_iff_eq]
    exact hid b hb

theorem runBatch_notification (st0 : SettingsState) (prompt : String)
    (modelConfig : ModelConfig) (batchId : ℚ) (count : Nat) (images0 : List ImageRecord)
    (pending0 : List Batch) (settles : List UnitSettle) (liveSettings : List SettingsState) :
    (runBatch st0 prompt modelConfig batchId count images0 pending0 settles
        liveSettings).notification
      = if 0 < (settles.filter (fun u => u.success)).length
        then Notification.generated (settles.filter (fun u => u.success)).length
        else Notification.allFailed := by
  unfold runBatch
  dsimp only
  rw [settleFold_completed]
  simp

theorem ids_distinct (T i j : Nat) (ri rj : ℚ)
    (hri0 : 0 ≤ ri) (hri1 : ri < 1) (hrj0 : 0 ≤ rj) (hrj1 : rj < 1) (hij : i ≠ j) :
    (T : ℚ) + (i : ℚ) + ri ≠ (T : ℚ) + (j : ℚ) + rj := by
  intro h
  rcases Nat.lt_or_ge i j with hlt | hge
  · have hj : (i : ℚ) + 1 ≤ (j : ℚ) := by exact_mod_cast hlt
    linarith
  · have hlt : j < i := lt_of_le_of_ne hge fun hh => hij hh.symm
    have hj : (j : ℚ) + 1 ≤ (i : ℚ) := by exact_mod_cast hlt
    linarith

/-- C2 (amended): for a batch of `N = settles.length` units of which `K` fail,
once all units have settled: exactly `N - K` new records are in Gallery State;
the batch has been removed from the active set (given that no other active batch
shares its id); the new records' ids are pairwise distinct provided the
successful units all observe the same clock millisecond `T` and distinct unit
indices (with two different clock values ids can collide, see
`batchRun_claim_counterexample`); the completion notification reports `N - K`
successes when at least one unit succeeded and is the generic all-failed
notification when every unit failed. -/
theorem batchRun_outcome (st0 : SettingsState) (prompt : String) (modelConfig : ModelConfig)
    (batchId : ℚ) (images0 : List ImageRecord) (pending0 : List Batch)
    (settles : List UnitSettle) (liveSettings : List SettingsState) (T : Nat)
    (hid : ∀ b ∈ pending0, b.id ≠ batchId)
    (hrand : ∀ u ∈ settles, 0 ≤ u.rand ∧ u.rand < 1)
    (hidx : List.Pairwise (fun a b => a ≠ b) (settles.map (fun u => u.index)))
    (hnow : ∀ u ∈ settles, u.now = T) :
    (runBatch st0 prompt modelConfig batchId settles.length images0 pending0 settles
        liveSettings).newImages.length
      = settles.length - (settles.filter (fun u => !u.success)).length
    ∧ (runBatch st0 prompt modelConfig batchId settles.length images0 pending0 settles
        liveSettings).pendingAfter = pending0
    ∧ List.Pairwise (fun a b => a ≠ b)
        ((runBatch st0 prompt modelConfig batchId settles.length images0 pending0 settles
            liveSettings).newImages.map (fun rec => rec.id))
    ∧ ((settles.filter (fun u => u.success)).length ≠ 0 →
        (runBatch st0 prompt modelConfig batchId settles.length images0 pending0 settles
            liveSettings).notification
          = Notification.generated
              (settles.length - (settles.filter (fun u => !u.success)).length))
    ∧ ((settles.filter (fun u => u.success)).length = 0 →
        (runBatch st0 prompt modelConfig batchId settles.length images0 pending0 settles
            liveSettings).notification = Notification.allFailed)
    ∧ (runBatch st0 prompt modelConfig batchId settles.length images0 pending0 settles
        liveSettings).imagesAfter
      = (runBatch st0 prompt modelConfig batchId settles.length images0 pending0 settles
          liveSettings).newImages.reverse ++ images0 := by
  have hnew := runBatch_newImages st0 prompt modelConfig batchId settles.length images0
    pending0 settles liveSettings
  have hlen := length_filter_add_length_filter_not settles
  refine ⟨?_, ?_, ?_, ?_, ?_, ?_⟩
  · rw [hnew, List.length_map]
    omega
  · exact runBatch_pendingAfter st0 prompt modelConfig batchId settles.length images0
      pending0 settles liveSettings hid
  · rw [hnew, List.map_map]
    have h1 : List.Pairwise (fun a b : UnitSettle => a.index ≠ b.index) settles :=
      (List.pairwise_map).1 hidx
    have h2 : List.Pairwise (fun a b : UnitSettle => a.index ≠ b.index)
        (settles.filter (fun u => u.success)) := h1.filter _
    have h3 : List.Pairwise
        (fun a b : UnitSettle =>
          (mkRecordFromUnit st0 prompt modelConfig a).id
            ≠ (mkRecordFromUnit st0 prompt modelConfig b).id)
        (settles.filter (fun u => u.success)) := by
      refine h2.imp_of_mem ?_
      intro a b ha hb hab
      have hna := hnow a (List.mem_of_mem_filter ha)
      have hnb := hnow b (List.mem_of_mem_filter hb)
      have hra := hrand a (List.mem_of_mem_filter ha)
      have hrb := hrand b (List.mem_of_mem_filter hb)
      dsimp only [mkRecordFromUnit]
      rw [hna, hnb]
      exact ids_distinct T a.index b.index a.rand b.rand hra.1 hra.2 hrb.1 hrb.2 hab
    exact (List.pairwise_map).2 h3
  · intro hpos
    rw [runBatch_notification, if_pos (Nat.pos_of_ne_zero hpos)]
    congr 1
    omega
  · intro hzero
    rw [runBatch_notification, if_neg (by omega)]
  · simp [runBatch]

/-- C2 counterexample: with two successful settlements one millisecond apart
(the unit with index 1 settling at clock value 4, the unit with index 0 at
clock value 5, equal `Math.random()` draws) both inserted records receive id 5,
so the inserted ids are not pairwise distinct; and for a batch of a single unit
that fails (`K = N = 1`) the completion notification is the generic all-failed
toast, not a report of `N - K = 0` successes. -/
theorem batchRun_claim_counterexample :
    ¬ List.Pairwise (fun a b => a ≠ b)
        ((runBatch sampleSettings ("p") sampleConfig 0 2 [] [] collideSettles
            []).newImages.map (fun rec => rec.id))
    ∧ (runBatch sampleSettings ("p") sampleConfig 0 1 [] [] [failSettle]
        []).notification ≠ Notification.generated 0 := by
  constructor
  · have hlist : (((collideSettles.filter (fun u => u.success)).map
        (mkRecordFromUnit sampleSettings ("p") sampleConfig)).map (fun rec => rec.id))
        = [((4 : Nat) : ℚ) + ((1 : Nat) : ℚ) + 0, ((5 : Nat) : ℚ) + ((0 : Nat) : ℚ) + 0] := rfl
    rw [runBatch_newImages, hlist]
    intro hp
    have h := (List.pairwise_cons.1 hp).1 _ (List.mem_singleton_self _)
    apply h
    push_cast
    norm_num
  · rw [runBatch_notification]
    have hlen : ((([failSettle]).filter (fun u => u.success)).length) = 0 := rfl
    rw [hlen, if_neg (by omega)]
    decide

/-- Witness for `batchRun_outcome`: a one-unit batch with a fresh id, whose unit
succeeds at clock value 100 with random draw 0. -/
theorem batchRun_outcome_witness :
    ((∀ b ∈ ([] : List Batch), b.id ≠ (7 : ℚ))
      ∧ (∀ u ∈ [sampleSettle], 0 ≤ u.rand ∧ u.rand < 1)
      ∧ List.Pairwise (fun a b => a ≠ b) (List.map (fun u => u.index) [sampleSettle])
      ∧ (∀ u ∈ [sampleSettle], u.now = 100))
    ∧ ((runBatch sampleSettings ("p") sampleConfig 7 (List.length [sampleSettle]) [] []
          [sampleSettle] []).newImages.length
        = List.length [sampleSettle]
            - (List.filter (fun u => !u.success) [sampleSettle]).length
      ∧ (runBatch sampleSettings ("p") sampleConfig 7 (List.length [sampleSettle]) [] []
          [sampleSettle] []).pendingAfter = []
      ∧ List.Pairwise (fun a b => a ≠ b)
          ((runBatch sampleSettings ("p") sampleConfig 7 (List.length [sampleSettle]) [] []
              [sampleSettle] []).newImages.map (fun rec => rec.id))
      ∧ ((List.filter (fun u => u.success) [sampleSettle]).length ≠ 0 →
          (runBatch sampleSettings ("p") sampleConfig 7 (List.length [sampleSettle]) [] []
              [sampleSettle] []).notification
            = Notification.generated
                (List.length [sampleSettle]
                  - (List.filter (fun u => !u.success) [sampleSettle]).length))
      ∧ ((List.filter (fun u => u.success) [sampleSettle]).length = 0 →
          (runBatch sampleSettings ("p") sampleConfig 7 (List.length [sampleSettle]) [] []
              [sampleSettle] []).notification = Notification.allFailed)
      ∧ (runBatch sampleSettings ("p") sampleConfig 7 (List.length [sampleSettle]) [] []
            [sampleSettle] []).imagesAfter
          = (runBatch sampleSettings ("p") sampleConfig 7 (List.length [sampleSettle]) [] []
              [sampleSettle] []).newImages.reverse ++ []) :=
  ⟨⟨by decide, by decide, by decide, by decide⟩,
    batchRun_outcome sampleSettings ("p") sampleConfig 7 [] [] [sampleSettle] [] 100
      (by decide) (by decide) (by decide) (by decide)⟩

/-- C3: every outbound request of a batch is the one built from the
submission-time settings, every resulting record carries the submission-time
prompt, model id, model display name, sizing parameters and reference list, and
the whole run is unchanged under any sequence of live-settings states observed
while units are in flight. -/
theorem capturedParams (st0 : SettingsState) (prompt : String) (modelConfig : ModelConfig)
    (batchId : ℚ) (count : Nat) (images0 : List ImageRecord) (pending0 : List Batch)
    (settles : List UnitSettle) (liveSettings : List SettingsState) :
    (∀ rb ∈ (runBatch st0 prompt modelConfig batchId count images0 pending0 settles
        liveSettings).requestsSent, rb = buildRequestBody st0 prompt modelConfig)
    ∧ (∀ rec ∈ (runBatch st0 prompt modelConfig batchId count images0 pending0 settles
        liveSettings).newImages,
        rec.prompt = prompt ∧ rec.model = st0.selectedModel
          ∧ rec.modelName = modelConfig.name ∧ rec.size = st0.imageSize
          ∧ rec.quality = st0.imageQuality ∧ rec.aspectRatio = st0.aspectRatio
          ∧ rec.references = st0.references)
    ∧ ∀ liveSettings₂ : List SettingsState,
        runBatch st0 prompt modelConfig batchId count images0 pending0 settles liveSettings₂
          = runBatch st0 prompt modelConfig batchId count images0 pending0 settles
              liveSettings := by
  refine ⟨?_, ?_, fun _ => rfl⟩
  · intro rb hrb
    exact List.eq_of_mem_replicate hrb
  · intro rec hrec
    rw [runBatch_newImages] at hrec
    obtain ⟨u, hu, rfl⟩ := List.mem_map.1 hrec
    exact ⟨rfl, rfl, rfl, rfl, rfl, rfl, rfl⟩

/-- Witness for `capturedParams`: the record of the sample one-unit batch
carries the submission-time parameters. -/
theorem capturedParams_witness :
    (mkRecordFromUnit sampleSettings ("a cat") sampleConfig sampleSettle
        ∈ (runBatch sampleSettings ("a cat") sampleConfig 0 1 [] [] [sampleSettle]
            []).newImages)
    ∧ ((mkRecordFromUnit sampleSettings ("a cat") sampleConfig sampleSettle).prompt = "a cat"
      ∧ (mkRecordFromUnit sampleSettings ("a cat") sampleConfig sampleSettle).model
          = sampleSettings.selectedModel
      ∧ (mkRecordFromUnit sampleSettings ("a cat") sampleConfig sampleSettle).modelName
          = sampleConfig.name
      ∧ (mkRecordFromUnit sampleSettings ("a cat") sampleConfig sampleSettle).size
          = sampleSettings.imageSize
      ∧ (mkRecordFromUnit sampleSettings ("a cat") sampleConfig sampleSettle).quality
          = sampleSettings.imageQuality
      ∧ (mkRecordFromUnit sampleSettings ("a cat") sampleConfig sampleSettle).aspectRatio
          = sampleSettings.aspectRatio
      ∧ (mkRecordFromUnit sampleSettings ("a cat") sampleConfig sampleSettle).references
          = sampleSettings.references) := by
  have hmem : mkRecordFromUnit sampleSettings ("a cat") sampleConfig sampleSettle
      ∈ (runBatch sampleSettings ("a cat") sampleConfig 0 1 [] [] [sampleSettle]
          []).newImages := by
    rw [runBatch_newImages]
    exact List.mem_singleton_self _
  exact ⟨hmem,
    (capturedParams sampleSettings ("a cat") sampleConfig 0 1 [] [] [sampleSettle] []).2.1
      (mkRecordFromUnit sampleSettings ("a cat") sampleConfig sampleSettle) hmem⟩

theorem extractAfterImages_eq (m : Message) :
    extractAfterImages m
      = (match shapeContentPart m with
         | some v => Except.ok v
         | none =>
           match shapeWholeBody m with
           | some v => Except.ok v
           | none => Except.error GenError.NoImageInResponse) := by
  obtain ⟨images, content⟩ := m
  cases content with
  | str s =>
    simp only [extractAfterImages, shapeContentPart, shapeWholeBody, extractContentString]
    cases hs : s.startsWith ("data:image") <;> simp [hs]
  | parts l =>
    simp only [extractAfterImages, shapeContentPart, shapeWholeBody, extractContentString]
  | otherContent => rfl

/-- C4: for every parsed response message, image extraction equals the
spec-side three-shape chain — the dedicated images list, then an image-bearing
structured content part, then the whole content as an embedded data-URI string
— returning the first match's payload and failing with `NoImageInResponse`
exactly when no shape matches. -/
theorem extractImage_priority (m : Message) : extractImage m = extractImageSpec m := by
  have hafter := extractAfterImages_eq m
  cases him : m.images with
  | none =>
    simp only [extractImage, extractImageSpec, shapeImagesList, him]
    exact hafter
  | some imgs =>
    cases imgs with
    | nil =>
      simp only [extractImage, extractImageSpec, shapeImagesList, him]
      exact hafter
    | cons img rest =>
      simp only [extractImage, extractImageSpec, shapeImagesList, him]
      cases he : extractFromImagesElem img with
      | none => simpa [he] using hafter
      | some v => simp [he]

theorem foldl_quality_stay (record : ImageRecord) (bs : List QualityButton)
    (huniq : ∀ b ∈ bs, b.quality = record.quality → b.size = record.size) :
    bs.foldl
      (fun acc b => if b.quality = record.quality then (b.size, b.quality) else acc)
      (record.size, record.quality) = (record.size, record.quality) := by
  induction bs with
  | nil => rfl
  | cons b bs ih =>
    by_cases hb : b.quality = record.quality
    · simp only [List.foldl_cons, if_pos hb,
        huniq b (List.mem_cons_self b bs) hb, hb]
      exact ih fun x hx => huniq x (List.mem_cons_of_mem b hx)
    · simp only [List.foldl_cons, if_neg hb]
      exact ih fun x hx => huniq x (List.mem_cons_of_mem b hx)

theorem foldl_quality_of_mem (record : ImageRecord) (qualityBtns : List QualityButton)
    (hmem : QualityButton.mk record.quality record.size ∈ qualityBtns)
    (huniq : ∀ b ∈ qualityBtns, b.quality = record.quality → b.size = record.size)
    (acc : String × String) :
    qualityBtns.foldl
      (fun acc b => if b.quality = record.quality then (b.size, b.quality) else acc) acc
      = (record.size, record.quality) := by
  induction qualityBtns generalizing acc with
  | nil => simp at hmem
  | cons b bs ih =>
    by_cases hb : b.quality = record.quality
    · simp only [List.foldl_cons, if_pos hb,
        huniq b (List.mem_cons_self b bs) hb, hb]
      exact foldl_quality_stay record bs fun x hx => huniq x (List.mem_cons_of_mem b hx)
    · simp only [List.foldl_cons, if_neg hb]
      have hmem2 : QualityButton.mk record.quality record.size ∈ bs := by
        rcases List.mem_cons.1 hmem with he | he
        · exact absurd (congrArg QualityButton.quality he).symm hb
        · exact he
      exact ih hmem2 (fun x hx => huniq x (List.mem_cons_of_mem b hx)) acc

theorem foldl_ratio_stay (target : String) (rs : List String) :
    rs.foldl (fun acc r => if r = target then r else acc) target = target := by
  induction rs with
  | nil => rfl
  | cons r rs ih =>
    by_cases hr : r = target
    · simp only [List.foldl_cons, if_pos hr, hr]
      exact ih
    · simp only [List.foldl_cons, if_neg hr]
      exact ih

theorem foldl_ratio_of_mem (target : String) (rs : List String) (hmem : target ∈ rs)
    (acc : String) :
    rs.foldl (fun acc r => if r = target then r else acc) acc = target := by
  induction rs generalizing acc with
  | nil => simp at hmem
  | cons r rs ih =>
    by_cases hr : r = target
    · simp only [List.foldl_cons, if_pos hr, hr]
      exact foldl_ratio_stay target rs
    · simp only [List.foldl_cons, if_neg hr]
      have hmem2 : target ∈ rs := by
        rcases List.mem_cons.1 hmem with he | he
        · exact absurd he.symm hr
        · exact he
      exact ih hmem2 acc

/-- C9: given a stored record whose quality/size pair is one of the configured
toggle buttons (with qualities determining sizes) and whose aspect ratio is one
of the configured aspect buttons — true of every record the app creates —
recreate sets the prompt, model, size/quality pair, aspect ratio and reference
list exactly to the record's stored values, for every current input
configuration, leaving no residual value in any of those fields. -/
theorem recreateImage_restores (qualityBtns : List QualityButton) (ratioBtns : List String)
    (record : ImageRecord) (cur : InputConfig)
    (hq : QualityButton.mk record.quality record.size ∈ qualityBtns)
    (huniq : ∀ b ∈ qualityBtns, b.quality = record.quality → b.size = record.size)
    (hr : record.aspectRatio ∈ ratioBtns) :
    recreateImage qualityBtns ratioBtns record cur
      = { promptInput := record.prompt, selectedModel := record.model,
          imageSize := record.size, imageQuality := record.quality,
          aspectRatio := record.aspectRatio, references := record.references } := by
  have hrefs : (if record.references.length > 0 then record.references else [])
      = record.references := by
    cases record.references <;> simp
  unfold recreateImage
  dsimp only
  rw [foldl_quality_of_mem record qualityBtns hq huniq,
    foldl_ratio_of_mem record.aspectRatio ratioBtns hr, hrefs]

/-- Witness for `recreateImage_restores`: recreating `sampleRecord` over a
current configuration left by an unrelated submission restores exactly the
record's parameters. -/
theorem recreateImage_restores_witness :
    (QualityButton.mk sampleRecord.quality sampleRecord.size ∈ sampleButtons)
    ∧ (∀ b ∈ sampleButtons, b.quality = sampleRecord.quality → b.size = sampleRecord.size)
    ∧ (sampleRecord.aspectRatio ∈ sampleRatios)
    ∧ recreateImage sampleButtons sampleRatios sampleRecord junkConfig
      = { promptInput := sampleRecord.prompt, selectedModel := sampleRecord.model,
          imageSize := sampleRecord.size, imageQuality := sampleRecord.quality,
          aspectRatio := sampleRecord.aspectRatio, references := sampleRecord.references } :=
  ⟨by decide, by decide, by decide,
    recreateImage_restores sampleButtons sampleRatios sampleRecord junkConfig
      (by decide) (by decide) (by decide)⟩

end Imagen
